import Mathlib

/-!
Verification of the element-to-document assembly pipeline of
`langchain_unstructured` (files `langchain_unstructured/document_loaders.py`
and the identical `langchain_unstructured/parsers/pdf.py`).

The embedding models JSON-ish Python dictionaries as association lists with
unique keys (`Dict`), element records (`ElementRec`) as produced by
`Element.to_dict()` or by decoding the remote API response, and output
`Document`s (`Doc`).  External collaborators (the partitioning engine, the
OCR image parser, `markdownify`, `pandas`, `BeautifulSoup` parsing and
`_purge_metadata` / `_format_inner_image` from `langchain_community`) are
parameters of the embedded functions, exactly as the spec places them out
of scope.
-/

/-- Values stored in a Python/JSON metadata dictionary: a string, an
integer, or `None`/null.  `dict.get` on a missing key returns `None`,
which we identify with the stored null (`PyVal.null`), exactly as Python
`.get` does. -/
inductive PyVal where
  | s (v : String)
  | n (v : Nat)
  | null
deriving DecidableEq, Repr

/-- A Python dictionary with string keys, modelled as an association list
with unique keys, in insertion order. -/
abbrev Dict := List (String × PyVal)

/-- Python `d.get(k)` (default `None`). -/
def pyGet : Dict → String → PyVal
  | [], _ => .null
  | p :: ps, k => if p.1 = k then p.2 else pyGet ps k

/-- Python `k in d` (key membership). -/
def dictHasKey : Dict → String → Bool
  | [], _ => false
  | p :: ps, k => if p.1 = k then true else dictHasKey ps k

/-- Python `d.pop(k, None)`: remove the (unique) binding of `k`, if any. -/
def dictRemove : Dict → String → Dict
  | [], _ => []
  | p :: ps, k => if p.1 = k then ps else p :: dictRemove ps k

/-- Python `d[k] = v`: overwrite the (unique) binding of `k` in place,
keeping its position, or append a new binding. -/
def dictSet : Dict → String → PyVal → Dict
  | [], k, v => [(k, v)]
  | p :: ps, k, v => if p.1 = k then (k, v) :: ps else p :: dictSet ps k v

/-- Python `d.update(e)`: fold `dictSet` over the entries of `e`. -/
def dictUpdate (d e : Dict) : Dict :=
  e.foldl (fun acc p => dictSet acc p.1 p.2) d

/-- One element record, as the loader sees it after `Element.to_dict()` or
after decoding the remote JSON response: the `text`, `category`, `type`,
`element_id` and `metadata` fields of the dictionary.  `text` is modelled
as a plain string (the loader does `cast(str, element.get("text"))`). -/
structure ElementRec where
  text : String
  category : Option String
  typ : Option String
  elementId : Option String
  metadata : Dict
deriving DecidableEq, Repr

/-- An output `Document`: `page_content` plus `metadata`. -/
structure Doc where
  pageContent : String
  metadata : Dict
deriving DecidableEq, Repr

/-- Python truthiness of an optional string (`None` and `""` are falsy). -/
def pyTruthyStr : Option String → Bool
  | some v => v ≠ ""
  | none => false

/-- An optional string as a stored dictionary value (`None` becomes null). -/
def optStr : Option String → PyVal
  | some v => .s v
  | none => .null

/-- Python `element.get("category") or element.get("type")` from
`_SingleDocumentLoader.lazy_load`. -/
def mergedCategory (e : ElementRec) : PyVal :=
  optStr (if pyTruthyStr e.category then e.category else e.typ)

/-- One iteration of `_SingleDocumentLoader.lazy_load`
(document_loaders.py lines 327-338): copy the file metadata, pop
`"filename"` from the element's own metadata dictionary (the source pops
on the aliased dictionary, so the element record itself is mutated — the
second component returns the element in its post-iteration state), merge
the element metadata over the copy, then set `"category"` and
`"element_id"`, and yield the `Document`. -/
def processElement (fileMetadata : Dict) (e : ElementRec) : Doc × ElementRec :=
  let elementMetadata := dictRemove e.metadata "filename"
  let metadata := dictUpdate fileMetadata elementMetadata
  let metadata := dictSet metadata "category" (mergedCategory e)
  let metadata := dictSet metadata "element_id" (optStr e.elementId)
  (⟨e.text, metadata⟩, { e with metadata := elementMetadata })

/-- The whole of `_SingleDocumentLoader.lazy_load`: the yielded
`Document`s in order, paired with the post-run states of the element
records (whose metadata the loop mutated in place). -/
def lazy_load (fileMetadata : Dict) (es : List ElementRec) :
    List Doc × List ElementRec :=
  (es.map (fun e => (processElement fileMetadata e).1),
   es.map (fun e => (processElement fileMetadata e).2))

/-- The `extract_tables` constructor argument of `UnstructuredPDFParser`,
whose Python type is `Optional[Literal["csv", "markdown", "html"]]` (the
optional wrapper is applied at use sites). -/
inductive TableFormat where
  | csv
  | markdown
  | html
deriving DecidableEq, Repr

/-- The configuration of one `UnstructuredPDFParser` run that the assembly
loop of `lazy_parse` reads: the stored `self.mode`, `self.pages_delimitor`,
`self.extract_tables` and `self.images_inner_format`. -/
structure ParserCfg where
  mode : String
  pagesDelimitor : String
  extractTables : Option TableFormat
  imagesInnerFormat : String

/-- The external collaborators the assembly loop calls into, out of scope
per the spec: the image parser (`self.images_parser` — image path to
recognized text), `_format_inner_image` from `langchain_community`
(image path, recognized text, `images_inner_format` to inline fragment),
`markdownify`, and the `pandas` HTML-table-to-CSV conversion. -/
structure Externals where
  ocr : String → String
  formatInnerImage : String → String → String → String
  mdify : String → String
  csvify : String → String

/-- The method `UnstructuredPDFParser._convert_table` (document_loaders.py
lines 841-867): empty string when table extraction is off or the
`text_as_html` value is missing/falsy, otherwise the markup unchanged
(`html`), `markdownify` output (`markdown`), or the `pandas` CSV rendering
(`csv`).  The non-string/null case is the Python falsy `None` branch. -/
def _convert_table (cfg : ParserCfg) (ext : Externals) (htmlTable : PyVal) :
    String :=
  match cfg.extractTables with
  | none => ""
  | some fmt =>
    match htmlTable with
    | .s h =>
      if h = "" then ""
      else
        match fmt with
        | .html => h
        | .markdown => ext.mdify h
        | .csv => ext.csvify h
    | _ => ""

/-- The assembly loop of `UnstructuredPDFParser.lazy_parse`
(document_loaders.py lines 771-839) for the `single` and `page` modes,
with its mutable state passed explicitly: the pending fragments
`page_content`, the `page_break` flag, and the `page_number` counter.
Each constructor-of-the-list case mirrors one iteration of the Python
`for` loop over the documents produced by `lazy_load`; the empty case is
the post-loop flush. -/
def assembleLoop (cfg : ParserCfg) (ext : Externals) (docMetadata : Dict) :
    List Doc → List String → Bool → Nat → List Doc
  | [], pageContent, _, pageNumber =>
    if cfg.mode = "single" then
      [⟨String.intercalate "\n" pageContent, docMetadata⟩]
    else if pageContent ≠ [] then
      [⟨String.intercalate "\n" pageContent,
        dictSet docMetadata "page" (.n pageNumber)⟩]
    else []
  | d :: ds, pageContent0, pageBreak, pageNumber =>
    let pageContent :=
      if pageBreak then pageContent0 ++ [cfg.pagesDelimitor] else pageContent0
    let cat := pyGet d.metadata "category"
    if cat = .s "Image" then
      if dictHasKey d.metadata "image_path" then
        let path := match pyGet d.metadata "image_path" with
          | .s p => p
          | _ => ""
        let imageText := ext.ocr path
        if imageText ≠ "" then
          assembleLoop cfg ext docMetadata ds
            (pageContent ++ [ext.formatInnerImage path imageText cfg.imagesInnerFormat])
            false pageNumber
        else
          assembleLoop cfg ext docMetadata ds pageContent false pageNumber
      else
        assembleLoop cfg ext docMetadata ds pageContent false pageNumber
    else if cat = .s "Table" then
      assembleLoop cfg ext docMetadata ds
        (pageContent ++ [_convert_table cfg ext (pyGet d.metadata "text_as_html")])
        false pageNumber
    else if cat = .s "Title" then
      assembleLoop cfg ext docMetadata ds
        (pageContent ++ ["# " ++ d.pageContent]) false pageNumber
    else if cat = .s "Header" then
      assembleLoop cfg ext docMetadata ds pageContent false pageNumber
    else if cat = .s "Footer" then
      assembleLoop cfg ext docMetadata ds pageContent false pageNumber
    else if cat = .s "PageBreak" then
      if cfg.mode = "page" ∨ cfg.mode = "paged" then
        ⟨String.intercalate "\n" pageContent,
          dictSet docMetadata "page" (.n pageNumber)⟩ ::
          assembleLoop cfg ext docMetadata ds [] false (pageNumber + 1)
      else
        assembleLoop cfg ext docMetadata ds pageContent true pageNumber
    else
      assembleLoop cfg ext docMetadata ds
        (pageContent ++ [d.pageContent]) false pageNumber

/-- The mode dispatch of `UnstructuredPDFParser.lazy_parse`
(document_loaders.py lines 769-839): in `elements` mode yield the
documents of `lazy_load` unchanged; in `page` or `single` mode run the
assembly loop over them with empty initial state.  `docMetadata` is the
purged per-file metadata computed before the loop and `fileMetadata` the
loader-level file metadata merged into each element document. -/
def lazy_parse (cfg : ParserCfg) (ext : Externals) (docMetadata fileMetadata : Dict)
    (es : List ElementRec) : List Doc :=
  if cfg.mode = "elements" then (lazy_load fileMetadata es).1
  else if cfg.mode = "page" ∨ cfg.mode = "single" then
    assembleLoop cfg ext docMetadata (lazy_load fileMetadata es).1 [] false 0
  else []

/-- An element record carrying only a category and a text, as used by the
test scenarios. -/
def mkElem (cat txt : String) : ElementRec :=
  ⟨txt, some cat, none, none, []⟩

/-- The scenario input of the spec: Title, NarrativeText, PageBreak,
NarrativeText. -/
def scenarioElems : List ElementRec :=
  [mkElem "Title" "Intro", mkElem "NarrativeText" "Hello",
   mkElem "PageBreak" "", mkElem "NarrativeText" "World"]

/-- Externals that are never exercised by the scenarios (no Image or Table
elements appear). -/
def noExternals : Externals :=
  ⟨fun _ => "", fun _ _ _ => "", fun s => s, fun s => s⟩

/-- A `single`-mode configuration with the default page delimiter. -/
def cfgSingle : ParserCfg := ⟨"single", "\n\n", none, "text"⟩

/-- A `page`-mode configuration with the default page delimiter. -/
def cfgPage : ParserCfg := ⟨"page", "\n\n", none, "text"⟩

/-- Replacement of every occurrence of the single character `c` by the
string `repl`, on the character list of a string: the meaning of Python
`str.replace` for the one-character patterns used by
`_transform_cell_content`. -/
def replaceChar (c : Char) (repl : String) : List Char → List Char
  | [] => []
  | x :: xs =>
    if x = c then repl.data ++ replaceChar c repl xs
    else x :: replaceChar c repl xs

/-- Python `value.replace(c, repl)` for a one-character pattern. -/
def pyReplaceChar (value : String) (c : Char) (repl : String) : String :=
  ⟨replaceChar c repl value.data⟩

/-- The helper `_transform_cell_content` (document_loaders.py lines
48-56): optionally run `markdownify` on a non-empty cell, then replace
each `"|"` by `"&#124;"` and each newline by `"<br>"`. -/
def _transform_cell_content (mdify : String → String) (value : String)
    (conversionInd : Bool) : String :=
  let value := if value ≠ "" ∧ conversionInd = true then mdify value else value
  pyReplaceChar (pyReplaceChar value '|' "&#124;") '\n' "<br>"

/-- One `<tr>` row of the parsed table markup: the inner HTML of its
`<th>` cells and of its `<td>` cells, in document order (what
`renderContents().decode("utf-8")` returns per cell). -/
structure TableRow where
  ths : List String
  tds : List String
deriving DecidableEq, Repr

/-- What `BeautifulSoup` (the external HTML parser) reports about the
input markup of `convert_table`: either no tag at all (`soup.find()` is
falsy, so the input is returned unchanged), or a document with its list
of `<tr>` rows (`soup.find_all("tr")`, possibly empty). -/
inductive ParsedHtml where
  | noTag
  | tags (trs : List TableRow)
deriving DecidableEq, Repr

/-- The alignment marker dictionary of `convert_table`. -/
def alignment_options : List (String × String) :=
  [("left", " :--- "), ("center", " :---: "), ("right", " ---: ")]

/-- The configuration error `convert_table` raises on an unsupported
`all_cols_alignment` value. -/
def alignmentErrorMsg : String :=
  "Invalid alignment option for \x27all_cols_alignment\x27 arg. " ++
    "Expected one of: [\x27left\x27, \x27center\x27, \x27right\x27]"

/-- The structural error `convert_table` raises when the markup has no
`<tr>` row container (the caught `AttributeError`). -/
def noTrErrorMsg : String := "No \x27tr\x27 tag found"

/-- The module-level function `convert_table` (document_loaders.py lines
59-122).  `rawHtml` is the input markup string and `parsed` is what the
external `BeautifulSoup` parse of it yields.  It validates the alignment
first, returns no-tag input unchanged, fails when no `<tr>` exists,
extracts header cells from the first row's `<th>` tags, body cells from
the remaining rows' `<td>` tags (all rows when there is no heading), and
joins the markdown lines exactly as the Python string joins do. -/
def convert_table (mdify : String → String) (rawHtml : String)
    (parsed : ParsedHtml) (contentConversionInd : Bool)
    (allColsAlignment : String) : Except String String :=
  match List.lookup allColsAlignment alignment_options with
  | none => .error alignmentErrorMsg
  | some alignMark =>
    match parsed with
    | .noTag => .ok rawHtml
    | .tags trs =>
      match trs with
      | [] => .error noTrErrorMsg
      | tr0 :: rest =>
        let tableHeadings := tr0.ths.map
          (fun th => " " ++ _transform_cell_content mdify th contentConversionInd ++ " ")
        let tableTr := if tableHeadings ≠ [] then rest else tr0 :: rest
        let tableBody := tableTr.map
          (fun tr => tr.tds.map
            (fun td => " " ++ _transform_cell_content mdify td contentConversionInd ++ " "))
        let table :=
          (if tableHeadings ≠ [] then [tableHeadings] else []) ++ tableBody
        let firstLen := (table.headD []).length
        let headCells :=
          if tableHeadings ≠ [] then tableHeadings
          else List.replicate firstLen " "
        let mdTableHeader := String.intercalate "|"
          ([""] ++ headCells ++ ["\n"] ++ List.replicate firstLen alignMark ++ ["\n"])
        let mdTable := mdTableHeader ++ String.join
          (tableBody.map (fun row => String.intercalate "|" ([""] ++ row ++ ["\n"])))
        .ok mdTable

/-- One response of the remote partition endpoint, as
`_elements_via_api` sees it: the status code and the raw response body. -/
structure ApiResponse where
  statusCode : Nat
  rawText : String

/-- The error message of `_elements_via_api` for a non-200 status. -/
def apiErrorMsg (code : Nat) : String :=
  "Receive unexpected status code " ++ toString code ++ " from the API."

/-- The property `_SingleDocumentLoader._elements_via_api`
(document_loaders.py lines 371-381): on status 200 decode the response
body as the list of element records (the JSON decoding itself is the
external `json.loads`, passed as `decodeJson`); on any other status raise
a `ValueError` carrying the status code. -/
def _elements_via_api (decodeJson : String → List ElementRec)
    (resp : ApiResponse) : Except String (List ElementRec) :=
  if resp.statusCode = 200 then .ok (decodeJson resp.rawText)
  else .error (apiErrorMsg resp.statusCode)

/-- Element retrieval via the API followed by `lazy_load`: when the
retrieval fails, the error propagates and no `Document` is yielded. -/
def lazyLoadViaApi (decodeJson : String → List ElementRec)
    (resp : ApiResponse) (fileMetadata : Dict) : Except String (List Doc) :=
  (_elements_via_api decodeJson resp).map
    (fun es => (lazy_load fileMetadata es).1)

/-- The set of accepted `mode` values of the `UnstructuredPDFParser`
constructor. -/
def valid_modes : List String := ["single", "elements", "paged", "page"]

/-- The mode validation and normalization of `UnstructuredPDFParser.__init__`
(document_loaders.py lines 691-699): reject a value outside
`valid_modes`, rewrite the deprecated `"paged"` to `"page"` (with only a
logged warning), keep everything else. -/
def init_mode (mode : String) : Except String String :=
  if mode ∈ valid_modes then
    if mode = "paged" then .ok "page" else .ok mode
  else
    .error ("Got " ++ mode ++ " for `mode`, but should be one of " ++
      "`\x7b\x27single\x27, \x27elements\x27, \x27paged\x27, \x27page\x27\x7d`")

/-- A full parser run: constructor mode handling followed by
`lazy_parse` with the stored mode. -/
def run_with_mode (mode delim : String) (et : Option TableFormat)
    (ifmt : String) (ext : Externals) (dm fm : Dict)
    (es : List ElementRec) : Except String (List Doc) :=
  (init_mode mode).map
    (fun stored => lazy_parse ⟨stored, delim, et, ifmt⟩ ext dm fm es)

/-- The category values that the assembly loop treats specially; every
other category falls into the raw-text-append default branch. -/
def specialCategories : List PyVal :=
  [.s "Image", .s "Table", .s "Title", .s "Header", .s "Footer", .s "PageBreak"]

/-- Number of documents whose merged category is `PageBreak`. -/
def countPB (docs : List Doc) : Nat :=
  (docs.filter (fun d => pyGet d.metadata "category" = PyVal.s "PageBreak")).length

/-- An element whose metadata carries a `filename` key, exhibiting the
in-place mutation of `_SingleDocumentLoader.lazy_load`. -/
def c3Elem : ElementRec :=
  ⟨"Hello", some "NarrativeText", none, some "e1",
   [("filename", .s "x.pdf"), ("page_number", .n 1)]⟩

/-- A sequence with no Table/Image/PageBreak but with a Title, a Header
and a Footer. -/
def c5Elems : List ElementRec :=
  [mkElem "Title" "Intro", mkElem "Header" "h", mkElem "Footer" "f"]

/-- Two narrative elements for the C5 witness. -/
def c5WitnessElems : List ElementRec :=
  [mkElem "NarrativeText" "a", mkElem "NarrativeText" "b"]

/-- A bare PageBreak element. -/
def pbElem : ElementRec := mkElem "PageBreak" ""

theorem pyGet_dictSet_self (d : Dict) (k : String) (v : PyVal) :
    pyGet (dictSet d k v) k = v := by
  induction d with
  | nil => simp [dictSet, pyGet]
  | cons p ps ih =>
    by_cases h : p.1 = k
    · simp [dictSet, pyGet, h]
    · simp [dictSet, pyGet, h, ih]

theorem pyGet_dictSet_ne (d : Dict) (k k' : String) (v : PyVal)
    (h : k' ≠ k) : pyGet (dictSet d k' v) k = pyGet d k := by
  induction d with
  | nil => simp [dictSet, pyGet, h]
  | cons p ps ih =>
    by_cases hp : p.1 = k'
    · simp [dictSet, pyGet, hp, h, Ne.symm h]
    · by_cases hk : p.1 = k
      · simp [dictSet, pyGet, hp, hk, Ne.symm h]
      · simp [dictSet, pyGet, hp, hk, ih]

/-- The `category` value of the document produced for an element is the
element's own merged category: the last two `dictSet`s of
`processElement` write `category` and then `element_id`. -/
theorem processElement_category (fm : Dict) (e : ElementRec) :
    pyGet (processElement fm e).1.metadata "category" = mergedCategory e := by
  unfold processElement
  simp only
  rw [pyGet_dictSet_ne _ _ _ _ (by decide : ("element_id" : String) ≠ "category")]
  exact pyGet_dictSet_self _ _ _

/-- The documents of `lazy_load` carry the elements' texts, in order. -/
theorem lazy_load_pageContent (fm : Dict) (es : List ElementRec) :
    (lazy_load fm es).1.map Doc.pageContent = es.map ElementRec.text := by
  simp [lazy_load, List.map_map]
  intro a _
  rfl

/-- C1 counterexample: on the scenario input in `single` mode with the
default delimiter, the assembled content is not `"# Intro\nHello\n\nWorld"`
as claimed — the delimiter is inserted as its own `"\n"`-joined fragment. -/
theorem c1_counterexample :
    (lazy_parse cfgSingle noExternals [] [] scenarioElems).map Doc.pageContent
      ≠ ["# Intro\nHello\n\nWorld"] := by decide

/-- C1 (amended): the scenario input assembled in mode `single` with the
default page delimiter `"\n\n"` yields exactly one `Document`, whose
content is `"# Intro\nHello\n\n\n\nWorld"`: the page-break delimiter is
appended as its own fragment and the fragments are joined with `"\n"`,
so the delimiter ends up surrounded by the two join newlines. -/
theorem c1_single_mode :
    lazy_parse cfgSingle noExternals [] [] scenarioElems
      = [⟨"# Intro\nHello\n\n\n\nWorld", []⟩] := by decide

/-- C2: the scenario input assembled in mode `page` yields exactly two
documents, in order: page 0 with content `"# Intro\nHello"` and page 1
with content `"World"`, each carrying its page index in the metadata. -/
theorem c2_page_mode :
    lazy_parse cfgPage noExternals [] [] scenarioElems
      = [⟨"# Intro\nHello", [("page", .n 0)]⟩,
         ⟨"World", [("page", .n 1)]⟩] := by decide

/-- C3: the code violates the claim.  The loop body of
`_SingleDocumentLoader.lazy_load` runs `element_metadata.pop("filename",
None)` on the element's own metadata dictionary (no copy is taken), so
after the document is yielded the element's metadata has lost its
`filename` key: the post-run element state differs from the input
element exactly by that key. -/
theorem c3_filename_pop :
    dictHasKey c3Elem.metadata "filename" = true ∧
    (lazy_load [] [c3Elem]).2
      = [{ c3Elem with metadata := [("page_number", PyVal.n 1)] }] ∧
    dictHasKey (((lazy_load [] [c3Elem]).2.headD c3Elem).metadata) "filename"
      = false := by decide

/-- C4: in `elements` mode, assembly yields exactly one `Document` per
input element, in input order — the document count equals the element
count and the i-th document carries the i-th element's text. -/
theorem c4_elements_mode (delim ifmt : String) (et : Option TableFormat)
    (ext : Externals) (dm fm : Dict) (es : List ElementRec) :
    (lazy_parse ⟨"elements", delim, et, ifmt⟩ ext dm fm es).length = es.length ∧
    (lazy_parse ⟨"elements", delim, et, ifmt⟩ ext dm fm es).map Doc.pageContent
      = es.map ElementRec.text := by
  constructor
  · simp [lazy_parse, lazy_load]
  · simpa [lazy_parse] using lazy_load_pageContent fm es

/-- C7: element retrieval through the remote API fails with an error
carrying the status code whenever the response status is not 200 (and
then no `Document` is yielded), and decodes the response body as the
element records when the status is 200. -/
theorem c7_api_status (decode : String → List ElementRec)
    (resp : ApiResponse) (fm : Dict) :
    (resp.statusCode ≠ 200 →
      lazyLoadViaApi decode resp fm
          = .error (apiErrorMsg resp.statusCode) ∧
        ∃ pre post, apiErrorMsg resp.statusCode
          = pre ++ toString resp.statusCode ++ post) ∧
    (resp.statusCode = 200 →
      lazyLoadViaApi decode resp fm
        = .ok (lazy_load fm (decode resp.rawText)).1) := by
  constructor
  · intro h
    refine ⟨?_, "Receive unexpected status code ", " from the API.", rfl⟩
    simp [lazyLoadViaApi, _elements_via_api, h, Except.map]
  · intro h
    simp [lazyLoadViaApi, _elements_via_api, h, Except.map]

/-- C7 witness: a 500 response yields the error carrying 500 and no
documents; a 200 response with an empty element list yields no error. -/
theorem c7_api_status_witness :
    lazyLoadViaApi (fun _ => []) ⟨500, ""⟩ [] = .error (apiErrorMsg 500) ∧
    lazyLoadViaApi (fun _ => []) ⟨200, ""⟩ [] = .ok [] :=
  ⟨((c7_api_status (fun _ => []) ⟨500, ""⟩ []).1 (by decide)).1,
   (c7_api_status (fun _ => []) ⟨200, ""⟩ []).2 rfl⟩

/-- C8: `convert_table` rejects any `all_cols_alignment` outside
`left`/`center`/`right` with the configuration error, for every input —
in particular before any row of the input is processed (the same error
comes back whatever the parsed rows are, even when the markup has no
row container at all). -/
theorem c8_invalid_alignment (mdify : String → String) (rawHtml : String)
    (parsed : ParsedHtml) (ci : Bool) (align : String)
    (h : align ∉ ["left", "center", "right"]) :
    convert_table mdify rawHtml parsed ci align = .error alignmentErrorMsg := by
  have h1 : align ≠ "left" := fun e => h (by simp [e])
  have h2 : align ≠ "center" := fun e => h (by simp [e])
  have h3 : align ≠ "right" := fun e => h (by simp [e])
  have e1 : (align == "left") = false := beq_eq_false_iff_ne.mpr h1
  have e2 : (align == "center") = false := beq_eq_false_iff_ne.mpr h2
  have e3 : (align == "right") = false := beq_eq_false_iff_ne.mpr h3
  have hl : List.lookup align alignment_options = none := by
    simp [alignment_options, List.lookup, e1, e2, e3]
  simp [convert_table, hl]

/-- C8 witness: the alignment value `"center-ish"` is rejected with the
configuration error even on an input without any row container. -/
theorem c8_invalid_alignment_witness :
    convert_table (fun s => s) "<table></table>" (ParsedHtml.tags []) false
        "center-ish"
      = .error alignmentErrorMsg :=
  c8_invalid_alignment _ _ _ _ _ (by decide)

/-- C9: markdown table rendering escapes pipes and newlines in every
cell: `_transform_cell_content` maps `"a|b\nc"` to `"a&#124;b<br>c"`, and
a table whose body cell is `"a|b\nc"` renders with exactly that escaped
cell in its body line. -/
theorem c9_cell_escaping :
    _transform_cell_content (fun s => s) "a|b\nc" false = "a&#124;b<br>c" ∧
    convert_table (fun s => s) ""
        (.tags [⟨["H"], []⟩, ⟨[], ["a|b\nc"]⟩]) false "left"
      = .ok "| H |\n| :--- |\n| a&#124;b<br>c |\n" := by
  exact ⟨by decide, by rfl⟩

/-- C10: every successfully stored mode is one of `single`, `page`,
`elements` (the constructor accepts `paged` but rewrites it to `page`),
and a full run configured with `paged` is identical to one configured
with `page`. -/
theorem c10_mode_normalization :
    (∀ m m', init_mode m = .ok m' →
      m' = "single" ∨ m' = "page" ∨ m' = "elements") ∧
    init_mode "paged" = .ok "page" ∧
    (∀ (delim : String) (et : Option TableFormat) (ifmt : String)
        (ext : Externals) (dm fm : Dict) (es : List ElementRec),
      run_with_mode "paged" delim et ifmt ext dm fm es
        = run_with_mode "page" delim et ifmt ext dm fm es) := by
  refine ⟨?_, rfl, fun _ _ _ _ _ _ _ => rfl⟩
  intro m m' h
  by_cases hm : m ∈ valid_modes
  · have hc : m = "single" ∨ m = "elements" ∨ m = "paged" ∨ m = "page" := by
      simpa [valid_modes] using hm
    rcases hc with h1 | h1 | h1 | h1 <;> subst h1 <;>
      simp [init_mode, valid_modes] at h <;> subst h <;> decide
  · simp [init_mode, hm] at h

/-- C10 witness: the first conjunct applied at the normalized `paged`
mode, and the behavioural identity at the scenario input. -/
theorem c10_mode_normalization_witness :
    ("page" = "single" ∨ "page" = "page" ∨ "page" = "elements") ∧
    run_with_mode "paged" "\n\n" none "text" noExternals [] [] scenarioElems
      = run_with_mode "page" "\n\n" none "text" noExternals [] [] scenarioElems :=
  ⟨c10_mode_normalization.1 "paged" "page" (by rfl),
   c10_mode_normalization.2.2 "\n\n" none "text" noExternals [] [] scenarioElems⟩

/-- The single-mode assembly of a document list in which every category
falls into the default append branch is the newline join of the pending
fragments followed by the documents' contents. -/
theorem assembleLoop_single_plain (delim ifmt : String) (et : Option TableFormat)
    (ext : Externals) (dm : Dict) (docs : List Doc)
    (h : ∀ d ∈ docs, pyGet d.metadata "category" ∉ specialCategories) :
    ∀ acc : List String,
    assembleLoop ⟨"single", delim, et, ifmt⟩ ext dm docs acc false 0
      = [⟨String.intercalate "\n" (acc ++ docs.map Doc.pageContent), dm⟩] := by
  induction docs with
  | nil => intro acc; simp [assembleLoop]
  | cons d ds ih =>
    intro acc
    have hd := h d (List.mem_cons_self d ds)
    have hds : ∀ x ∈ ds, pyGet x.metadata "category" ∉ specialCategories :=
      fun x hx => h x (List.mem_cons_of_mem d hx)
    simp only [specialCategories, List.mem_cons, List.not_mem_nil, or_false,
      not_or] at hd
    obtain ⟨n1, n2, n3, n4, n5, n6⟩ := hd
    simp only [assembleLoop, if_neg (show ¬(false = true) by decide),
      if_neg n1, if_neg n2, if_neg n3, if_neg n4, if_neg n5, if_neg n6]
    rw [ih hds]
    simp [List.append_assoc]

/-- C5 counterexample: `c5Elems` has no Table, Image or PageBreak
element, yet `single`-mode assembly produces `"# Intro"` — the Title is
prefixed with the heading marker and the Header and Footer texts are
dropped — which is not the newline join `"Intro\nh\nf"` of the elements'
texts. -/
theorem c5_counterexample :
    (lazy_parse cfgSingle noExternals [] [] c5Elems).map Doc.pageContent
        = ["# Intro"] ∧
      "# Intro" ≠ String.intercalate "\n" (c5Elems.map ElementRec.text) := by
  decide

/-- C5 (amended): for every element sequence containing no element of
category Table, Image, PageBreak, Title, Header or Footer, assembling in
mode `single` yields one `Document` whose content is the newline join of
every input element's text, in input order. -/
theorem c5_single_plain (delim ifmt : String) (et : Option TableFormat)
    (ext : Externals) (dm fm : Dict) (es : List ElementRec)
    (h : ∀ e ∈ es, mergedCategory e ∉ specialCategories) :
    lazy_parse ⟨"single", delim, et, ifmt⟩ ext dm fm es
      = [⟨String.intercalate "\n" (es.map ElementRec.text), dm⟩] := by
  have hdocs : ∀ d ∈ (lazy_load fm es).1,
      pyGet d.metadata "category" ∉ specialCategories := by
    intro d hd
    simp only [lazy_load, List.mem_map] at hd
    obtain ⟨e, he, rfl⟩ := hd
    rw [processElement_category]
    exact h e he
  simp only [lazy_parse]
  rw [if_neg (by decide), if_pos (by decide),
    assembleLoop_single_plain delim ifmt et ext dm _ hdocs [],
    List.nil_append, lazy_load_pageContent]

/-- C5 witness: the amended theorem applied to two NarrativeText
elements. -/
theorem c5_single_plain_witness :
    lazy_parse ⟨"single", "\n\n", none, "text"⟩ noExternals [] [] c5WitnessElems
      = [⟨String.intercalate "\n" (c5WitnessElems.map ElementRec.text), []⟩] :=
  c5_single_plain "\n\n" "text" none noExternals [] [] c5WitnessElems (by decide)

/-- C6 counterexample: in `page` mode the input consisting of a single
PageBreak — a page with zero accumulated content that never received any
non-PageBreak element — still yields one `Document`, with empty content
and page index 0: the flush at a PageBreak is unconditional. -/
theorem c6_counterexample :
    lazy_parse cfgPage noExternals [] [] [pbElem]
      = [⟨"", [("page", PyVal.n 0)]⟩] := by decide

theorem countPB_cons_ne (d : Doc) (ds : List Doc)
    (h : ¬ pyGet d.metadata "category" = PyVal.s "PageBreak") :
    countPB (d :: ds) = countPB ds := by
  simp [countPB, List.filter_cons, h]

theorem countPB_cons_pb (d : Doc) (ds : List Doc)
    (h : pyGet d.metadata "category" = PyVal.s "PageBreak") :
    countPB (d :: ds) = countPB ds + 1 := by
  simp [countPB, List.filter_cons, h]

/-- In `page` mode, a document list ending in a PageBreak assembles to
exactly one output `Document` per PageBreak: the final flush after the
trailing PageBreak contributes nothing because the collection is empty. -/
theorem assembleLoop_page_pb_last (delim ifmt : String) (et : Option TableFormat)
    (ext : Externals) (dm : Dict) (pbd : Doc)
    (hpb : pyGet pbd.metadata "category" = PyVal.s "PageBreak") :
    ∀ (docs : List Doc) (acc : List String) (n : Nat),
    (assembleLoop ⟨"page", delim, et, ifmt⟩ ext dm (docs ++ [pbd])
        acc false n).length
      = countPB docs + 1 := by
  intro docs
  induction docs with
  | nil =>
    intro acc n
    have n1 : ¬ (pyGet pbd.metadata "category" = PyVal.s "Image") := by
      rw [hpb]; decide
    have n2 : ¬ (pyGet pbd.metadata "category" = PyVal.s "Table") := by
      rw [hpb]; decide
    have n3 : ¬ (pyGet pbd.metadata "category" = PyVal.s "Title") := by
      rw [hpb]; decide
    have n4 : ¬ (pyGet pbd.metadata "category" = PyVal.s "Header") := by
      rw [hpb]; decide
    have n5 : ¬ (pyGet pbd.metadata "category" = PyVal.s "Footer") := by
      rw [hpb]; decide
    simp [assembleLoop, n1, n2, n3, n4, n5, hpb, countPB]
  | cons d ds ih =>
    intro acc n
    by_cases hd : pyGet d.metadata "category" = PyVal.s "PageBreak"
    · have n1 : ¬ (pyGet d.metadata "category" = PyVal.s "Image") := by
        rw [hd]; decide
      have n2 : ¬ (pyGet d.metadata "category" = PyVal.s "Table") := by
        rw [hd]; decide
      have n3 : ¬ (pyGet d.metadata "category" = PyVal.s "Title") := by
        rw [hd]; decide
      have n4 : ¬ (pyGet d.metadata "category" = PyVal.s "Header") := by
        rw [hd]; decide
      have n5 : ¬ (pyGet d.metadata "category" = PyVal.s "Footer") := by
        rw [hd]; decide
      rw [List.cons_append]
      simp only [assembleLoop, if_neg (show ¬(false = true) by decide),
        if_neg n1, if_neg n2, if_neg n3, if_neg n4, if_neg n5, if_pos hd]
      simp only [eq_self_iff_true, true_or, if_true]
      rw [List.length_cons, ih [] (n + 1), countPB_cons_pb d ds hd]
    · rw [List.cons_append, countPB_cons_ne d ds hd]
      simp only [assembleLoop, if_neg (show ¬(false = true) by decide)]
      repeat' split
      all_goals exact ih _ _

/-- C6 (amended): `page`-mode assembly flushes unconditionally at every
PageBreak (so an intermediate empty page does yield an empty `Document`),
but after the element sequence is exhausted a final `Document` is emitted
only for a non-empty trailing collection: a sequence ending in a
PageBreak yields exactly one `Document` per PageBreak and no trailing
extra `Document`. -/
theorem c6_page_trailing (delim ifmt : String) (et : Option TableFormat)
    (ext : Externals) (dm fm : Dict) (es : List ElementRec) :
    (lazy_parse ⟨"page", delim, et, ifmt⟩ ext dm fm (es ++ [pbElem])).length
      = countPB (lazy_load fm (es ++ [pbElem])).1 := by
  have hpb : pyGet (processElement fm pbElem).1.metadata "category"
      = PyVal.s "PageBreak" := by
    rw [processElement_category]; decide
  have hsplit : (lazy_load fm (es ++ [pbElem])).1
      = (lazy_load fm es).1 ++ [(processElement fm pbElem).1] := by
    simp [lazy_load]
  simp only [lazy_parse]
  rw [if_neg (by decide), if_pos (by decide), hsplit,
    assembleLoop_page_pb_last delim ifmt et ext dm _ hpb (lazy_load fm es).1 [] 0]
  simp [countPB, List.filter_append, hpb]
